import Mathlib

/-!
Verification of the Oxedium swap-math engine
(`jupiter-core/src/amms/components/{raw_amount_out,swap_math}.rs` and
`jupiter-core/src/amms/oxedium_amm.rs`), shallowly embedded over `Nat`.

Machine integers (`u64`, `u128`) are embedded as `Nat`; every place where the
Rust code performs a `checked_*` operation is modelled by an explicit bound
check against `2^64` / `2^128`, and the source's unchecked operations — the
fee-cap `u64` additions and the `10u128.pow` decimal powers — are modelled by
reduction modulo `2^64` / `2^128`, matching release-mode wrapping semantics
(under an overflow-checked build those operations panic instead; theorems
below whose conclusions depend on a wrapped value hold for release builds,
and the per-claim statements are chosen so that what they assert about the
program is build-profile independent).  Fallible code returns `Except`.
-/

namespace Oxedium

/-- Solana public keys only serve as lookup keys here; an abstract `Nat` id. -/
abbrev Pubkey := Nat

/-- Decidable equality for `Except`, so concrete runs can be checked by
`decide`. -/
instance {ε α : Type} [DecidableEq ε] [DecidableEq α] : DecidableEq (Except ε α)
  | .error e, .error f =>
    if h : e = f then isTrue (by rw [h]) else isFalse (by simp [h])
  | .error _, .ok _ => isFalse (by simp)
  | .ok _, .error _ => isFalse (by simp)
  | .ok a, .ok b =>
    if h : a = b then isTrue (by rw [h]) else isFalse (by simp [h])

/-- `u64::MAX + 1`. -/
def U64 : Nat := 2 ^ 64

/-- `u128::MAX + 1`. -/
def U128 : Nat := 2 ^ 128

/-- `u128::checked_mul`: fails (returns `none`) when the product does not fit
in 128 bits. -/
def checkedMul128 (a b : Nat) : Option Nat :=
  if a * b < U128 then some (a * b) else none

/-- `u128::checked_div`: fails exactly on a zero divisor (an unsigned checked
division cannot overflow). -/
def checkedDiv (a b : Nat) : Option Nat :=
  if b = 0 then none else some (a / b)

/-- `u64::checked_add`: fails when the sum does not fit in 64 bits. -/
def checkedAdd64 (a b : Nat) : Option Nat :=
  if a + b < U64 then some (a + b) else none

/-- Modelled from the spec: the `utils` module defining `SCALE` is not under
`src/`; the spec's glossary describes `SCALE` as the internal fixed-point
normalization constant bridging tokens of different decimal precisions.  We
fix it to `10^12`.  No claim below depends on its exact value. -/
def SCALE : Nat := 10 ^ 12

/-- The source's `10u128.pow(d)`.  `pow` is an UNchecked `u128` operation: in
release mode it wraps modulo `2^128` (so the value is garbage for
`39 ≤ d ≤ 127` and exactly `0` for `d ≥ 128`, since `2^128 ∣ 10^128`); an
overflow-checked build panics instead.  For `d ≤ 38` it is the exact power. -/
def pow10 (d : Nat) : Nat := 10 ^ d % U128

/-- Modelled from the spec: `states/vault.rs` is not under `src/`.  Field list
follows spec §3 together with the literal `Vault { .. }` initializers in
`tests/test_amms.rs` (which add `create_at_ts`). -/
structure Vault where
  token_mint : Pubkey
  pyth_price_account : Pubkey
  create_at_ts : Nat
  is_active : Bool
  base_fee : Nat
  max_age_price : Nat
  lp_mint : Pubkey
  initial_liquidity : Nat
  current_liquidity : Nat
  max_liquidity : Nat
  cumulative_yield_per_lp : Nat
  protocol_yield : Nat
  deriving DecidableEq

/-- `states/treasury.rs`: the protocol-fee / kill-switch singleton. -/
structure Treasury where
  stoptap : Bool
  admin : Pubkey
  fee_bps : Nat
  deriving DecidableEq

/-- Error tags of `raw_amount_out`, one per distinct `anyhow!` message in
`components/raw_amount_out.rs`.  The extra constructor `invalidPrice` is the
`InvalidPrice` tag of the spec's error taxonomy (§7); the source never
produces it — it exists so that statements about that taxonomy can be made. -/
inductive RawErr where
  | mulAmountFp
  | divAmountFp
  | mulUsdFp
  | divUsdFp
  | mulOutFp
  | divOutFp
  | mulFinal
  | divFinal
  | u64Narrow
  | invalidPrice
  deriving DecidableEq

/-- `components/raw_amount_out.rs::raw_amount_out`: the four-step fixed-point
conversion, all intermediates in `u128`, every multiply/divide checked, final
narrowing to `u64` checked.  The two decimal powers are the source's
unchecked `10u128.pow`, embedded as the wrapping `pow10`. -/
def raw_amount_out (amount_in decimals_in decimals_out price_in price_out : Nat) :
    Except RawErr Nat :=
  match checkedMul128 amount_in SCALE with
  | none => .error .mulAmountFp
  | some x =>
    match checkedDiv x (pow10 decimals_in) with
    | none => .error .divAmountFp
    | some amount_fp =>
      match checkedMul128 amount_fp price_in with
      | none => .error .mulUsdFp
      | some y =>
        match checkedDiv y 100000000 with
        | none => .error .divUsdFp
        | some usd_fp =>
          match checkedMul128 usd_fp 100000000 with
          | none => .error .mulOutFp
          | some z =>
            match checkedDiv z price_out with
            | none => .error .divOutFp
            | some out_fp =>
              match checkedMul128 out_fp (pow10 decimals_out) with
              | none => .error .mulFinal
              | some w =>
                match checkedDiv w SCALE with
                | none => .error .divFinal
                | some out =>
                  if out < U64 then .ok out else .error .u64Narrow

/-- Error tags of `calculate_fee_amount`, following spec §4.2. -/
inductive FeeErr where
  | feeCalculationOverflow
  | netNegative
  deriving DecidableEq

/-- One fee bucket: `gross_amount * fee_bps / 10_000`, `u64`-checked multiply,
floor division (spec §4.2). -/
def fee_of (gross bps : Nat) : Except FeeErr Nat :=
  if gross * bps < U64 then .ok (gross * bps / 10000)
  else .error .feeCalculationOverflow

/-- Modelled from the spec: `components/calculate_fee_amount.rs` is not under
`src/`.  Spec §4.2: each fee is `gross_amount * fee_bps / 10_000` (checked,
truncating division; overflow fails `FeeCalculationOverflow`);
`net_amount = gross_amount - sum(fees)` and must never go negative — the
guard below fails when it would. -/
def calculate_fee_amount (gross lp_fee_bps protocol_fee_bps partner_fee_bps : Nat) :
    Except FeeErr (Nat × Nat × Nat × Nat) :=
  match fee_of gross lp_fee_bps with
  | .error e => .error e
  | .ok lp_fee =>
    match fee_of gross protocol_fee_bps with
    | .error e => .error e
    | .ok protocol_fee =>
      match fee_of gross partner_fee_bps with
      | .error e => .error e
      | .ok partner_fee =>
        if gross < lp_fee + protocol_fee + partner_fee then .error .netNegative
        else .ok (gross - (lp_fee + protocol_fee + partner_fee), lp_fee,
                  protocol_fee, partner_fee)

/-- Error tags of `compute_swap_math`, one per `anyhow!` site in
`components/swap_math.rs`. -/
inductive SwapErr where
  | rawAmountOutFailed (e : RawErr)
  | feesExceedMaximum
  | feeCalculationFailed (e : FeeErr)
  | feeSumOverflow
  | insufficientLiquidity
  deriving DecidableEq

/-- `components/swap_math.rs::SwapMathResult`. -/
structure SwapMathResult where
  swap_fee_bps : Nat
  raw_amount_out : Nat
  net_amount_out : Nat
  lp_fee_amount : Nat
  protocol_fee_amount : Nat
  partner_fee_amount : Nat
  deriving DecidableEq

/-- `components/swap_math.rs::compute_swap_math`.  The fee-rate resolver
`fees_setting` lives in `components/fees_setting.rs`, which is not under
`src/`, and the spec (§4.2, §9) explicitly leaves its combination rule open;
it is therefore threaded in as an explicit function argument, so every
theorem below holds for all possible fee rules.  The fee-cap comparison uses
the unchecked `u64` addition of the source, modelled as reduction mod `2^64`. -/
def compute_swap_math (fees_setting : Vault → Vault → Nat)
    (amount_in price_in price_out decimals_in decimals_out : Nat)
    (vault_in vault_out : Vault) (protocol_fee_bps partner_fee_bps : Nat) :
    Except SwapErr SwapMathResult :=
  match raw_amount_out amount_in decimals_in decimals_out price_in price_out with
  | .error e => .error (.rawAmountOutFailed e)
  | .ok raw_out =>
    if 10000 < (fees_setting vault_in vault_out + protocol_fee_bps + partner_fee_bps) % U64 then
      .error .feesExceedMaximum
    else
      match calculate_fee_amount raw_out (fees_setting vault_in vault_out)
          protocol_fee_bps partner_fee_bps with
      | .error e => .error (.feeCalculationFailed e)
      | .ok (after_fee, lp_fee, protocol_fee, partner_fee) =>
        match checkedAdd64 after_fee lp_fee with
        | none => .error .feeSumOverflow
        | some v1 =>
          match checkedAdd64 v1 protocol_fee with
          | none => .error .feeSumOverflow
          | some v2 =>
            match checkedAdd64 v2 partner_fee with
            | none => .error .feeSumOverflow
            | some total_out =>
              if vault_out.current_liquidity < total_out then
                .error .insufficientLiquidity
              else
                .ok { swap_fee_bps := fees_setting vault_in vault_out
                      raw_amount_out := raw_out
                      net_amount_out := after_fee
                      lp_fee_amount := lp_fee
                      protocol_fee_amount := protocol_fee
                      partner_fee_amount := partner_fee }

/-- What a raw account's bytes decode to under the program's Borsh parsers.
`oxedium_amm.rs::update` first tries `Vault::try_from_slice`, then
`Treasury::try_from_slice`; at most one succeeds, which this sum captures. -/
inductive ParsedAccount where
  | vault (v : Vault)
  | treasury (t : Treasury)
  | unparsed
  deriving DecidableEq

/-- Abstraction of an on-chain `Account`: its owner and the outcomes of the
three parsers applied to its bytes (`Vault`/`Treasury` Borsh decoding,
`parse_mint_decimals`, `parse_pyth_price`); `none` models a parse failure. -/
structure AccountData where
  owner : Pubkey
  parsed : ParsedAccount
  mintDecimals : Option Nat
  pythPrice : Option Nat
  deriving DecidableEq

/-- An `AccountMap` / `HashMap` snapshot as an association list. -/
abbrev AccountMap := List (Pubkey × AccountData)

/-- `HashMap::insert`: replace any existing binding of the key. -/
def upsert {α : Type} (k : Pubkey) (v : α) (m : List (Pubkey × α)) :
    List (Pubkey × α) :=
  (k, v) :: m.filter (fun p => !(p.1 == k))

/-- `oxedium_amm.rs::OxediumAmm` — the adapter state (metadata pubkeys and the
label are irrelevant to the claims and omitted; the four maps and the owning
program id are kept). -/
structure OxediumAmm where
  program_id : Pubkey
  vaults : List (Pubkey × Vault)
  treasury : Option (Pubkey × Treasury)
  decimals : List (Pubkey × Nat)
  prices : List (Pubkey × Nat)

/-- One step of the first loop of `update`: classify an account owned by the
program as a vault or the treasury; skip everything else. -/
def updateStep (program_id : Pubkey) (s : OxediumAmm) (e : Pubkey × AccountData) :
    OxediumAmm :=
  if !(e.2.owner == program_id) then s
  else
    match e.2.parsed with
    | .vault v => { s with vaults := upsert e.1 v s.vaults }
    | .treasury t => { s with treasury := some (e.1, t) }
    | .unparsed => s

/-- `oxedium_amm.rs::update`: clear all maps, classify the account map into
vaults and the treasury, stop early when the treasury is missing or its
`stoptap` is set, otherwise fill decimals and prices best-effort. -/
def update (s : OxediumAmm) (account_map : AccountMap) : OxediumAmm :=
  let cleared : OxediumAmm :=
    { s with vaults := [], treasury := none, decimals := [], prices := [] }
  let s1 := account_map.foldl (updateStep s.program_id) cleared
  match s1.treasury with
  | none => s1
  | some (_, t) =>
    if t.stoptap then s1
    else
      let s2 := { s1 with
        decimals := s1.vaults.foldl (fun dm (pv : Pubkey × Vault) =>
          match account_map.lookup pv.2.token_mint with
          | some acc =>
            match acc.mintDecimals with
            | some d => upsert pv.2.token_mint d dm
            | none => dm
          | none => dm) s1.decimals }
      { s2 with
        prices := s2.vaults.foldl (fun pm (pv : Pubkey × Vault) =>
          match account_map.lookup pv.2.pyth_price_account with
          | some acc =>
            match acc.pythPrice with
            | some p => upsert pv.2.token_mint p pm
            | none => pm
          | none => pm) s2.prices }

/-- The quote request (`jupiter_amm_interface::QuoteParams`; the swap-mode
field is not read by `OxediumAmm::quote`). -/
structure QuoteParams where
  amount : Nat
  input_mint : Pubkey
  output_mint : Pubkey
  deriving DecidableEq

/-- The successful quote (`jupiter_amm_interface::Quote`); the `fee_pct`
decimal is not modelled numerically — the only fact the claims need about it
is that its computation divides by `params.amount` (see `QuoteErr.divByZero`). -/
structure Quote where
  in_amount : Nat
  out_amount : Nat
  fee_amount : Nat
  fee_mint : Pubkey
  deriving DecidableEq

/-- Error outcomes of `OxediumAmm::quote`, one per `anyhow!` site, plus
`divByZero` for the `rust_decimal` division-by-zero panic that
`Decimal::from(total_fee) / Decimal::from(params.amount)` raises when
`params.amount == 0` (a panic is a crash, not a `Result`; the embedding
surfaces it as a distinguished outcome). -/
inductive QuoteErr where
  | oracleNotReady
  | vaultInNotFound
  | vaultOutNotFound
  | priceInMissing
  | priceOutMissing
  | swapMathFailed (e : SwapErr)
  | divByZero
  deriving DecidableEq

/-- `self.vaults.values().find(|v| v.token_mint == mint)`. -/
def findVault (vaults : List (Pubkey × Vault)) (mint : Pubkey) : Option Vault :=
  (vaults.find? (fun pv => pv.2.token_mint == mint)).map (fun pv => pv.2)

/-- Tail of `OxediumAmm::quote` once the vaults, prices and decimals are
resolved: run `compute_swap_math`, sum the fee buckets with the source's
unchecked `u64` additions (mod `2^64`), and compute `fee_pct`, whose divisor
is `params.amount`. -/
def quoteCore (fees_setting : Vault → Vault → Nat) (params : QuoteParams)
    (vault_in vault_out : Vault) (treasury_fee_bps price_in price_out : Nat)
    (in_decimals out_decimals : Nat) : Except QuoteErr Quote :=
  match compute_swap_math fees_setting params.amount price_in price_out
      in_decimals out_decimals vault_in vault_out treasury_fee_bps 0 with
  | .error e => .error (.swapMathFailed e)
  | .ok r =>
    if params.amount = 0 then .error .divByZero
    else
      .ok { in_amount := params.amount
            out_amount := r.net_amount_out
            fee_amount :=
              (r.lp_fee_amount + r.protocol_fee_amount + r.partner_fee_amount) % U64
            fee_mint := vault_out.token_mint }

/-- `oxedium_amm.rs::OxediumAmm::quote`.  Missing decimals are substituted by
`0` (`unwrap_or(&0)` in the source). -/
def quote (fees_setting : Vault → Vault → Nat) (s : OxediumAmm)
    (params : QuoteParams) : Except QuoteErr Quote :=
  if (s.prices.lookup params.input_mint).isNone
      || (s.prices.lookup params.output_mint).isNone then
    .error .oracleNotReady
  else
    let treasury_fee_bps := (s.treasury.map (fun t => t.2.fee_bps)).getD 0
    match findVault s.vaults params.input_mint with
    | none => .error .vaultInNotFound
    | some vault_in =>
      match findVault s.vaults params.output_mint with
      | none => .error .vaultOutNotFound
      | some vault_out =>
        match s.prices.lookup vault_in.token_mint with
        | none => .error .priceInMissing
        | some price_in =>
          match s.prices.lookup vault_out.token_mint with
          | none => .error .priceOutMissing
          | some price_out =>
            quoteCore fees_setting params vault_in vault_out treasury_fee_bps
              price_in price_out
              ((s.decimals.lookup vault_in.token_mint).getD 0)
              ((s.decimals.lookup vault_out.token_mint).getD 0)

/-! ## Concrete fixtures (mirroring `tests/test_amms.rs`) -/

/-- A trivial fee rule charging 0 bps, for concrete instances (the real
`fees_setting` source file is absent and its rule is an open question). -/
def feeRule0 : Vault → Vault → Nat := fun _ _ => 0

/-- A fee rule charging 1 bps, as in the `base_fee: 1` vaults of the tests. -/
def feeRule1 : Vault → Vault → Nat := fun _ _ => 1

/-- Input-side vault of the direct-quote test (mint `1`, 10^12 liquidity). -/
def vaultA : Vault :=
  { token_mint := 1, pyth_price_account := 11, create_at_ts := 1
    is_active := true, base_fee := 1, max_age_price := 300, lp_mint := 21
    initial_liquidity := 1000000000000, current_liquidity := 1000000000000
    max_liquidity := 1000000000000, cumulative_yield_per_lp := 0
    protocol_yield := 0 }

/-- Output-side vault of the direct-quote test (mint `2`). -/
def vaultB : Vault :=
  { token_mint := 2, pyth_price_account := 12, create_at_ts := 1
    is_active := true, base_fee := 1, max_age_price := 300, lp_mint := 22
    initial_liquidity := 1000000000000, current_liquidity := 1000000000000
    max_liquidity := 1000000000000, cumulative_yield_per_lp := 0
    protocol_yield := 0 }

/-- `vaultB` with liquidity equal to the gross output of the scenario-A swap,
exercising the `total_out == current_liquidity` boundary. -/
def vaultBTight : Vault := { vaultB with current_liquidity := 135000000 }

/-! ## Helper lemmas -/

/-- A successful fee split satisfies `net + lp + protocol + partner = gross`
(the spec's reconciliation), and the fee buckets never exceed the gross. -/
theorem calculate_fee_amount_ok {gross l p q net lp pf pa : Nat}
    (h : calculate_fee_amount gross l p q = .ok (net, lp, pf, pa)) :
    net + lp + pf + pa = gross ∧ lp + pf + pa ≤ gross := by
  unfold calculate_fee_amount at h
  split at h <;> try exact absurd h (by simp)
  split at h <;> try exact absurd h (by simp)
  split at h <;> try exact absurd h (by simp)
  split at h
  · exact absurd h (by simp)
  · rename_i hneg
    simp only [Except.ok.injEq, Prod.mk.injEq] at h
    obtain ⟨h1, h2, h3, h4⟩ := h
    subst h1 h2 h3 h4
    omega

/-- A successful `checkedAdd64` is the true sum, and it fits in 64 bits. -/
theorem checkedAdd64_some {a b c : Nat} (h : checkedAdd64 a b = some c) :
    a + b < U64 ∧ c = a + b := by
  unfold checkedAdd64 at h
  split at h
  · exact ⟨by assumption, by simpa using h.symm⟩
  · exact absurd h (by simp)

/-- Inversion of a successful `compute_swap_math`: the pricing step succeeded
with the reported gross amount, the fee split succeeded with the reported
buckets, every checked partial sum fit in `u64`, and the liquidity guard
passed. -/
theorem compute_swap_math_ok_inv {fees_setting : Vault → Vault → Nat}
    {amount_in price_in price_out decimals_in decimals_out : Nat}
    {vault_in vault_out : Vault} {protocol_fee_bps partner_fee_bps : Nat}
    {r : SwapMathResult}
    (h : compute_swap_math fees_setting amount_in price_in price_out decimals_in
      decimals_out vault_in vault_out protocol_fee_bps partner_fee_bps = .ok r) :
    raw_amount_out amount_in decimals_in decimals_out price_in price_out
        = .ok r.raw_amount_out
    ∧ r.swap_fee_bps = fees_setting vault_in vault_out
    ∧ calculate_fee_amount r.raw_amount_out (fees_setting vault_in vault_out)
        protocol_fee_bps partner_fee_bps
        = .ok (r.net_amount_out, r.lp_fee_amount, r.protocol_fee_amount,
               r.partner_fee_amount)
    ∧ r.net_amount_out + r.lp_fee_amount + r.protocol_fee_amount
        + r.partner_fee_amount < U64
    ∧ ¬ vault_out.current_liquidity < r.net_amount_out + r.lp_fee_amount
        + r.protocol_fee_amount + r.partner_fee_amount := by
  unfold compute_swap_math at h
  split at h
  · exact absurd h (by simp)
  rename_i raw_out hraw
  split at h
  · exact absurd h (by simp)
  rename_i hcap
  split at h
  · exact absurd h (by simp)
  rename_i after_fee lp_fee protocol_fee partner_fee hcalc
  split at h
  · exact absurd h (by simp)
  rename_i v1 hadd1
  split at h
  · exact absurd h (by simp)
  rename_i v2 hadd2
  split at h
  · exact absurd h (by simp)
  rename_i total_out hadd3
  split at h
  · exact absurd h (by simp)
  rename_i hliq
  simp only [Except.ok.injEq] at h
  subst h
  obtain ⟨hb1, he1⟩ := checkedAdd64_some hadd1
  obtain ⟨hb2, he2⟩ := checkedAdd64_some hadd2
  obtain ⟨hb3, he3⟩ := checkedAdd64_some hadd3
  subst he1 he2 he3
  exact ⟨hraw, rfl, hcalc, hb3, hliq⟩

/-- C1: whenever `compute_swap_math` returns a successful `SwapMathResult`,
its fields reconcile exactly:
`net_amount_out + lp_fee_amount + protocol_fee_amount + partner_fee_amount
 == raw_amount_out`. -/
theorem C1_fee_reconciliation (fees_setting : Vault → Vault → Nat)
    (amount_in price_in price_out decimals_in decimals_out : Nat)
    (vault_in vault_out : Vault) (protocol_fee_bps partner_fee_bps : Nat)
    (r : SwapMathResult)
    (h : compute_swap_math fees_setting amount_in price_in price_out decimals_in
      decimals_out vault_in vault_out protocol_fee_bps partner_fee_bps = .ok r) :
    r.net_amount_out + r.lp_fee_amount + r.protocol_fee_amount
      + r.partner_fee_amount = r.raw_amount_out := by
  obtain ⟨-, -, hcalc, -, -⟩ := compute_swap_math_ok_inv h
  exact (calculate_fee_amount_ok hcalc).1

/-- C1 witness: the spec's scenario A succeeds and reconciles. -/
theorem C1_fee_reconciliation_witness :
    compute_swap_math feeRule1 1000000000 13500000000 100000000 9 6 vaultA
        vaultB 0 0 = .ok ⟨1, 135000000, 134986500, 13500, 0, 0⟩
    ∧ 134986500 + 13500 + 0 + 0 = 135000000 :=
  ⟨by decide,
   C1_fee_reconciliation feeRule1 1000000000 13500000000 100000000 9 6 vaultA
     vaultB 0 0 ⟨1, 135000000, 134986500, 13500, 0, 0⟩ (by decide)⟩

/-- C10: whenever `compute_swap_math` succeeds, the fee-bucket sum
`lp_fee_amount + protocol_fee_amount + partner_fee_amount` fits in `u64`
(it is bounded by the checked gross total), so the unchecked `u64` additions
computing `total_fee` in `OxediumAmm::quote` do not wrap. -/
theorem C10_fee_sum_no_overflow (fees_setting : Vault → Vault → Nat)
    (amount_in price_in price_out decimals_in decimals_out : Nat)
    (vault_in vault_out : Vault) (protocol_fee_bps partner_fee_bps : Nat)
    (r : SwapMathResult)
    (h : compute_swap_math fees_setting amount_in price_in price_out decimals_in
      decimals_out vault_in vault_out protocol_fee_bps partner_fee_bps = .ok r) :
    r.lp_fee_amount + r.protocol_fee_amount + r.partner_fee_amount < U64
    ∧ (r.lp_fee_amount + r.protocol_fee_amount + r.partner_fee_amount) % U64
        = r.lp_fee_amount + r.protocol_fee_amount + r.partner_fee_amount := by
  obtain ⟨-, -, -, hb, -⟩ := compute_swap_math_ok_inv h
  exact ⟨by omega, Nat.mod_eq_of_lt (by omega)⟩

/-- C10 witness: the fee sum of the scenario-A result fits in `u64`. -/
theorem C10_fee_sum_no_overflow_witness :
    compute_swap_math feeRule1 1000000000 13500000000 100000000 9 6 vaultA
        vaultB 0 0 = .ok ⟨1, 135000000, 134986500, 13500, 0, 0⟩
    ∧ 13500 + 0 + 0 < U64 ∧ (13500 + 0 + 0) % U64 = 13500 + 0 + 0 :=
  ⟨by decide,
   C10_fee_sum_no_overflow feeRule1 1000000000 13500000000 100000000 9 6 vaultA
     vaultB 0 0 ⟨1, 135000000, 134986500, 13500, 0, 0⟩ (by decide)⟩

/-- C2 counterexample.  The claim — every input with
`swap_fee_bps + protocol_fee_bps + partner_fee_bps > 10_000` fails with
`FeesExceedMaximum`, independent of the amounts and prices supplied — is
false: `raw_amount_out` runs before the fee-cap check, so with
`price_out = 0` and a bps sum of 10_001 the call reports the pricing
failure, not `FeesExceedMaximum`.  (No unchecked operation overflows at this
input, so this is the program's behavior under any build profile.) -/
theorem C2_fee_cap_counterexample :
    feeRule0 vaultA vaultB + 10001 + 0 > 10000
    ∧ compute_swap_math feeRule0 1 1 0 0 0 vaultA vaultB 10001 0
        = .error (.rawAmountOutFailed .divOutFp)
    ∧ SwapErr.rawAmountOutFailed .divOutFp ≠ .feesExceedMaximum :=
  ⟨by decide, by decide, by decide⟩

/-- C2 as amended: if `raw_amount_out` succeeds (it runs first) and the `u64`
sum `swap_fee_bps + protocol_fee_bps + partner_fee_bps` — as the source's
unchecked, hence wrapping, addition computes it — exceeds 10_000, then
`compute_swap_math` fails with `FeesExceedMaximum`. -/
theorem C2_fee_cap_amended (fees_setting : Vault → Vault → Nat)
    (amount_in price_in price_out decimals_in decimals_out : Nat)
    (vault_in vault_out : Vault) (protocol_fee_bps partner_fee_bps raw_out : Nat)
    (hraw : raw_amount_out amount_in decimals_in decimals_out price_in price_out
      = .ok raw_out)
    (hcap : 10000 < (fees_setting vault_in vault_out + protocol_fee_bps
      + partner_fee_bps) % U64) :
    compute_swap_math fees_setting amount_in price_in price_out decimals_in
      decimals_out vault_in vault_out protocol_fee_bps partner_fee_bps
      = .error .feesExceedMaximum := by
  simp only [compute_swap_math, hraw]
  rw [if_pos hcap]

/-- C2 witness: a 10_001 bps configuration with a well-priced input fails
`FeesExceedMaximum`. -/
theorem C2_fee_cap_amended_witness :
    raw_amount_out 1 0 0 1 1 = .ok 1
    ∧ 10000 < (feeRule0 vaultA vaultB + 10001 + 0) % U64
    ∧ compute_swap_math feeRule0 1 1 1 0 0 vaultA vaultB 10001 0
        = .error .feesExceedMaximum :=
  ⟨by decide, by decide,
   C2_fee_cap_amended feeRule0 1 1 1 0 0 vaultA vaultB 10001 0 1 (by decide)
     (by decide)⟩

/-- C4: on every input that reaches the liquidity check (pricing succeeded,
the fee cap passed, the fee split succeeded, and the gross total fit in
`u64`), `compute_swap_math` fails with `InsufficientLiquidity` iff
`total_out > vault_out.current_liquidity`, and `total_out ==
current_liquidity` succeeds with the split's buckets. -/
theorem C4_insufficient_liquidity_iff (fees_setting : Vault → Vault → Nat)
    (amount_in price_in price_out decimals_in decimals_out : Nat)
    (vault_in vault_out : Vault) (protocol_fee_bps partner_fee_bps : Nat)
    (raw_out net lp pf pa : Nat)
    (hraw : raw_amount_out amount_in decimals_in decimals_out price_in price_out
      = .ok raw_out)
    (hcap : ¬ 10000 < (fees_setting vault_in vault_out + protocol_fee_bps
      + partner_fee_bps) % U64)
    (hfee : calculate_fee_amount raw_out (fees_setting vault_in vault_out)
      protocol_fee_bps partner_fee_bps = .ok (net, lp, pf, pa))
    (hov : net + lp + pf + pa < U64) :
    (compute_swap_math fees_setting amount_in price_in price_out decimals_in
        decimals_out vault_in vault_out protocol_fee_bps partner_fee_bps
        = .error .insufficientLiquidity
      ↔ net + lp + pf + pa > vault_out.current_liquidity)
    ∧ (vault_out.current_liquidity = net + lp + pf + pa →
        compute_swap_math fees_setting amount_in price_in price_out decimals_in
          decimals_out vault_in vault_out protocol_fee_bps partner_fee_bps
          = .ok ⟨fees_setting vault_in vault_out, raw_out, net, lp, pf, pa⟩) := by
  have e1 : checkedAdd64 net lp = some (net + lp) := by
    unfold checkedAdd64; rw [if_pos (by omega)]
  have e2 : checkedAdd64 (net + lp) pf = some (net + lp + pf) := by
    unfold checkedAdd64; rw [if_pos (by omega)]
  have e3 : checkedAdd64 (net + lp + pf) pa = some (net + lp + pf + pa) := by
    unfold checkedAdd64; rw [if_pos (by omega)]
  have hE : compute_swap_math fees_setting amount_in price_in price_out
      decimals_in decimals_out vault_in vault_out protocol_fee_bps partner_fee_bps
      = if vault_out.current_liquidity < net + lp + pf + pa then
          .error .insufficientLiquidity
        else .ok ⟨fees_setting vault_in vault_out, raw_out, net, lp, pf, pa⟩ := by
    simp only [compute_swap_math, hraw]
    rw [if_neg hcap]
    simp only [hfee, e1, e2, e3]
  constructor
  · rw [hE]
    by_cases hl : vault_out.current_liquidity < net + lp + pf + pa
    · rw [if_pos hl]
      exact ⟨fun _ => hl, fun _ => rfl⟩
    · rw [if_neg hl]
      constructor
      · intro hcontr; exact absurd hcontr (by simp)
      · intro hgt; exact absurd hgt hl
  · intro he
    rw [hE, if_neg (by omega)]

/-- C4 witness: scenario A against a vault holding exactly the gross total
`135_000_000` succeeds at the `total_out == current_liquidity` boundary. -/
theorem C4_insufficient_liquidity_iff_witness :
    compute_swap_math feeRule1 1000000000 13500000000 100000000 9 6 vaultA
      vaultBTight 0 0 = .ok ⟨1, 135000000, 134986500, 13500, 0, 0⟩ :=
  (C4_insufficient_liquidity_iff feeRule1 1000000000 13500000000 100000000 9 6
    vaultA vaultBTight 0 0 135000000 134986500 13500 0 0 (by decide) (by decide)
    (by decide) (by decide)).2 (by decide)

/-- A successful `checkedMul128` is the true product, and it fits in 128 bits. -/
theorem checkedMul128_some {a b c : Nat} (h : checkedMul128 a b = some c) :
    a * b < U128 ∧ c = a * b := by
  unfold checkedMul128 at h
  split at h
  · exact ⟨by assumption, by simpa using h.symm⟩
  · exact absurd h (by simp)

/-- A successful `checkedDiv` is the floor quotient by a nonzero divisor. -/
theorem checkedDiv_some {a b c : Nat} (h : checkedDiv a b = some c) :
    b ≠ 0 ∧ c = a / b := by
  unfold checkedDiv at h
  split at h
  · exact absurd h (by simp)
  · exact ⟨by assumption, by simpa using h.symm⟩

/-- A successful `raw_amount_out` returns exactly the four-step fixed-point
formula (with the wrapping decimal powers), divisions flooring, evaluated
left to right. -/
theorem raw_amount_out_ok_val {amount_in decimals_in decimals_out price_in
    price_out v : Nat}
    (h : raw_amount_out amount_in decimals_in decimals_out price_in price_out
      = .ok v) :
    v = amount_in * SCALE / pow10 decimals_in * price_in / 100000000
        * 100000000 / price_out * pow10 decimals_out / SCALE := by
  unfold raw_amount_out at h
  split at h
  · exact absurd h (by simp)
  rename_i x hx
  split at h
  · exact absurd h (by simp)
  rename_i afp hafp
  split at h
  · exact absurd h (by simp)
  rename_i y hy
  split at h
  · exact absurd h (by simp)
  rename_i ufp hufp
  split at h
  · exact absurd h (by simp)
  rename_i z hz
  split at h
  · exact absurd h (by simp)
  rename_i ofp hofp
  split at h
  · exact absurd h (by simp)
  rename_i w hw
  split at h
  · exact absurd h (by simp)
  rename_i out hout
  split at h
  · simp only [Except.ok.injEq] at h
    subst h
    obtain ⟨-, e1⟩ := checkedMul128_some hx
    obtain ⟨-, e2⟩ := checkedDiv_some hafp
    obtain ⟨-, e3⟩ := checkedMul128_some hy
    obtain ⟨-, e4⟩ := checkedDiv_some hufp
    obtain ⟨-, e5⟩ := checkedMul128_some hz
    obtain ⟨-, e6⟩ := checkedDiv_some hofp
    obtain ⟨-, e7⟩ := checkedMul128_some hw
    obtain ⟨-, e8⟩ := checkedDiv_some hout
    subst e1 e2 e3 e4 e5 e6 e7 e8
    rfl
  · exact absurd h (by simp)

/-- C8: for fixed positive prices and fixed decimals, `raw_amount_out` is
monotonically non-decreasing in `amount_in` over inputs on which it
succeeds. -/
theorem C8_monotonic_in_amount (a1 a2 decimals_in decimals_out price_in
    price_out v1 v2 : Nat)
    (_hpin : 0 < price_in) (_hpout : 0 < price_out) (h12 : a1 ≤ a2)
    (h1 : raw_amount_out a1 decimals_in decimals_out price_in price_out = .ok v1)
    (h2 : raw_amount_out a2 decimals_in decimals_out price_in price_out = .ok v2) :
    v1 ≤ v2 := by
  rw [raw_amount_out_ok_val h1, raw_amount_out_ok_val h2]
  exact Nat.div_le_div_right (Nat.mul_le_mul_right _ (Nat.div_le_div_right
    (Nat.mul_le_mul_right _ (Nat.div_le_div_right (Nat.mul_le_mul_right _
      (Nat.div_le_div_right (Nat.mul_le_mul_right _ h12)))))))

/-- C8 witness: doubling the input amount in scenario A doubles the output. -/
theorem C8_monotonic_in_amount_witness :
    raw_amount_out 1000000000 9 6 13500000000 100000000 = .ok 135000000
    ∧ raw_amount_out 2000000000 9 6 13500000000 100000000 = .ok 270000000
    ∧ (135000000 : Nat) ≤ 270000000 :=
  ⟨by decide, by decide,
   C8_monotonic_in_amount 1000000000 2000000000 9 6 13500000000 100000000
     135000000 270000000 (by decide) (by decide) (by decide) (by decide)
     (by decide)⟩

/-- The spec's error taxonomy for `convert` as used by claim C7:
`ArithmeticOverflow` for any checked multiply/divide failure and
`OutputOverflow` for the final narrowing. -/
inductive ConvertErr where
  | arithmeticOverflow
  | outputOverflow
  deriving DecidableEq

/-- Modelled from the spec: spec §4.1's `convert` contract, written from the
spec's four formulas — `amount_fp = amount_in * SCALE / 10^decimals_in`,
`usd_fp = amount_fp * price_in / 10^8`, `out_fp = usd_fp * 10^8 / price_out`,
`out = out_fp * 10^decimals_out / SCALE` — with 128-bit-checked operands and
a checked narrowing to `u64`.  It exists only to be compared with the
source-derived `raw_amount_out` (claim C7). -/
def convertSpec (amount_in decimals_in decimals_out price_in price_out : Nat) :
    Except ConvertErr Nat :=
  match checkedMul128 amount_in SCALE with
  | none => .error .arithmeticOverflow
  | some x =>
    match checkedDiv x (10 ^ decimals_in) with
    | none => .error .arithmeticOverflow
    | some amount_fp =>
      match checkedMul128 amount_fp price_in with
      | none => .error .arithmeticOverflow
      | some y =>
        match checkedDiv y 100000000 with
        | none => .error .arithmeticOverflow
        | some usd_fp =>
          match checkedMul128 usd_fp 100000000 with
          | none => .error .arithmeticOverflow
          | some z =>
            match checkedDiv z price_out with
            | none => .error .arithmeticOverflow
            | some out_fp =>
              match checkedMul128 out_fp (10 ^ decimals_out) with
              | none => .error .arithmeticOverflow
              | some w =>
                match checkedDiv w SCALE with
                | none => .error .arithmeticOverflow
                | some out =>
                  if out < U64 then .ok out else .error .outputOverflow

/-- Except with the error re-tagged (the source's distinct per-step messages
collapsed onto the spec's coarser taxonomy). -/
def mapErr {ε ε' α : Type} (f : ε → ε') : Except ε α → Except ε' α
  | .error e => .error (f e)
  | .ok a => .ok a

/-- Source error tags mapped onto the spec taxonomy: the `u64` narrowing
failure is `OutputOverflow`, every checked multiply/divide failure is
`ArithmeticOverflow`. -/
def rawErrToConvert : RawErr → ConvertErr
  | .u64Narrow => .outputOverflow
  | _ => .arithmeticOverflow

/-- C7 counterexample.  The claim — `raw_amount_out` computes the four-step
algorithm with every multiply/divide overflow-checked — is false at
`decimals_in = 128`: the `10^decimals_in` divisor is computed by the
UNchecked `u128::pow`, which wraps to `0` (`2^128 ∣ 10^128`), so the source
fails step 1 with the step-1 division error (an overflow-checked build
panics at the `pow` instead; under neither profile does it return the exact
algorithm's result `ok 0`). -/
theorem C7_convert_counterexample :
    raw_amount_out 1 128 0 1 1 = .error .divAmountFp
    ∧ convertSpec 1 128 0 1 1 = .ok 0
    ∧ mapErr rawErrToConvert (raw_amount_out 1 128 0 1 1)
        ≠ convertSpec 1 128 0 1 1 :=
  ⟨by decide, by decide, by decide⟩

/-- C7 as amended: whenever both decimal counts are at most 38 — so the
unchecked `10u128.pow` is exact, `10^38 < 2^128 < 10^39` — `raw_amount_out`
computes exactly the spec's four-step fixed-point algorithm in order, all
operands widened to 128 bits, every multiply/divide checked, and the final
`u64` narrowing checked: up to re-tagging the error, it coincides with
`convertSpec`. -/
theorem C7_convert_refinement (amount_in decimals_in decimals_out price_in
    price_out : Nat) (hdi : decimals_in ≤ 38) (hdo : decimals_out ≤ 38) :
    mapErr rawErrToConvert
        (raw_amount_out amount_in decimals_in decimals_out price_in price_out)
      = convertSpec amount_in decimals_in decimals_out price_in price_out := by
  have e1 : pow10 decimals_in = 10 ^ decimals_in :=
    Nat.mod_eq_of_lt (lt_of_le_of_lt
      (Nat.pow_le_pow_right (by norm_num) hdi) (by decide))
  have e2 : pow10 decimals_out = 10 ^ decimals_out :=
    Nat.mod_eq_of_lt (lt_of_le_of_lt
      (Nat.pow_le_pow_right (by norm_num) hdo) (by decide))
  unfold raw_amount_out convertSpec
  rw [e1, e2]
  repeat' split
  all_goals rfl

/-- C7 witness: the refinement at scenario A's decimals (9 and 6). -/
theorem C7_convert_refinement_witness :
    (9 : Nat) ≤ 38 ∧ (6 : Nat) ≤ 38
    ∧ mapErr rawErrToConvert (raw_amount_out 1000000000 9 6 13500000000 100000000)
        = convertSpec 1000000000 9 6 13500000000 100000000 :=
  ⟨by decide, by decide,
   C7_convert_refinement 1000000000 9 6 13500000000 100000000 (by decide)
     (by decide)⟩

/-- C3 counterexample.  With `price_out == 0` the source does not fail with a
dedicated `InvalidPrice` error before step 3: execution reaches step 3, whose
`checked_div` returns `None` on the zero divisor, and the reported error is
the step-3 division error. -/
theorem C3_zero_price_counterexample :
    raw_amount_out 1 0 0 1 0 = .error .divOutFp
    ∧ RawErr.divOutFp ≠ RawErr.invalidPrice :=
  ⟨by decide, by decide⟩

/-- C3 as amended: for every `u64` `amount_in` and any prices/decimals with
`price_out == 0`, `raw_amount_out` never succeeds, and any error it returns
is never `InvalidPrice` (no such guard exists) — it is one of the checked
divisions returning `None` or a checked multiply overflowing; and whenever
execution reaches step 3 (the step-1 divisor, the source's unchecked
`10u128.pow(decimals_in)`, is nonzero and step 2 does not overflow), the
error is exactly the step-3 division error: the checked division returns
`None` on the zero divisor and no division by zero is performed. -/
theorem C3_zero_price_amended (amount_in decimals_in decimals_out price_in : Nat)
    (ha : amount_in < U64) :
    (∀ v, raw_amount_out amount_in decimals_in decimals_out price_in 0 ≠ .ok v)
    ∧ (∀ e, raw_amount_out amount_in decimals_in decimals_out price_in 0
          = .error e →
        e ≠ .invalidPrice ∧ (e = .divAmountFp ∨ e = .mulUsdFp ∨ e = .divOutFp))
    ∧ (pow10 decimals_in ≠ 0 →
        amount_in * SCALE / pow10 decimals_in * price_in < U128 →
        raw_amount_out amount_in decimals_in decimals_out price_in 0
          = .error .divOutFp) := by
  have h1 : checkedMul128 amount_in SCALE = some (amount_in * SCALE) := by
    unfold checkedMul128
    rw [if_pos]
    calc amount_in * SCALE ≤ (U64 - 1) * SCALE :=
          Nat.mul_le_mul_right _ (by omega)
      _ < U128 := by decide
  have main : (pow10 decimals_in = 0
        ∧ raw_amount_out amount_in decimals_in decimals_out price_in 0
            = .error .divAmountFp)
      ∨ (pow10 decimals_in ≠ 0
        ∧ ¬ amount_in * SCALE / pow10 decimals_in * price_in < U128
        ∧ raw_amount_out amount_in decimals_in decimals_out price_in 0
            = .error .mulUsdFp)
      ∨ (pow10 decimals_in ≠ 0
        ∧ amount_in * SCALE / pow10 decimals_in * price_in < U128
        ∧ raw_amount_out amount_in decimals_in decimals_out price_in 0
            = .error .divOutFp) := by
    by_cases hdz : pow10 decimals_in = 0
    · left
      refine ⟨hdz, ?_⟩
      have h2 : checkedDiv (amount_in * SCALE) (pow10 decimals_in) = none := by
        unfold checkedDiv; rw [if_pos hdz]
      simp only [raw_amount_out, h1, h2]
    · have h2 : checkedDiv (amount_in * SCALE) (pow10 decimals_in)
          = some (amount_in * SCALE / pow10 decimals_in) := by
        unfold checkedDiv; rw [if_neg hdz]
      by_cases hy : amount_in * SCALE / pow10 decimals_in * price_in < U128
      · right; right
        refine ⟨hdz, hy, ?_⟩
        have h3 : checkedMul128 (amount_in * SCALE / pow10 decimals_in) price_in
            = some (amount_in * SCALE / pow10 decimals_in * price_in) := by
          unfold checkedMul128; rw [if_pos hy]
        have h4 : checkedDiv (amount_in * SCALE / pow10 decimals_in * price_in)
            100000000
            = some (amount_in * SCALE / pow10 decimals_in * price_in / 100000000) := by
          unfold checkedDiv; rw [if_neg (by norm_num)]
        have h5 : checkedMul128
            (amount_in * SCALE / pow10 decimals_in * price_in / 100000000) 100000000
            = some (amount_in * SCALE / pow10 decimals_in * price_in / 100000000
                * 100000000) := by
          unfold checkedMul128
          rw [if_pos (lt_of_le_of_lt (Nat.div_mul_le_self _ _) hy)]
        have h6 : checkedDiv (amount_in * SCALE / pow10 decimals_in * price_in
            / 100000000 * 100000000) 0 = none := by
          unfold checkedDiv; rw [if_pos rfl]
        simp only [raw_amount_out, h1, h2, h3, h4, h5, h6]
      · right; left
        refine ⟨hdz, hy, ?_⟩
        have h3 : checkedMul128 (amount_in * SCALE / pow10 decimals_in) price_in
            = none := by
          unfold checkedMul128; rw [if_neg hy]
        simp only [raw_amount_out, h1, h2, h3]
  refine ⟨?_, ?_, ?_⟩
  · intro v hv
    rcases main with ⟨-, hm⟩ | ⟨-, -, hm⟩ | ⟨-, -, hm⟩ <;> rw [hm] at hv <;>
      exact Except.noConfusion hv
  · intro e he
    rcases main with ⟨-, hm⟩ | ⟨-, -, hm⟩ | ⟨-, -, hm⟩ <;> rw [hm] at he <;>
      · have hee := (by simpa using he.symm : e = _)
        subst hee
        exact ⟨by decide, by decide⟩
  · intro hdz hlt
    rcases main with ⟨hz, -⟩ | ⟨-, hn, -⟩ | ⟨-, -, hm⟩
    · exact absurd hz hdz
    · exact absurd hlt hn
    · exact hm

/-- C3 witness: a concrete zero-price call fails with the step-3 division
error. -/
theorem C3_zero_price_amended_witness :
    raw_amount_out 3 0 0 7 0 = .error .divOutFp :=
  (C3_zero_price_amended 3 0 0 7 (by decide)).2.2 (by decide) (by decide)

/-! ## Quote-level fixtures -/

/-- A fully-initialized adapter snapshot mirroring the direct-quote test:
both vaults, a live treasury charging 1 bps, decimals 9/6 and oracle prices
$135/$1 at the `10^8` scale. -/
def ammReady : OxediumAmm :=
  { program_id := 7
    vaults := [(101, vaultA), (102, vaultB)]
    treasury := some (5, { stoptap := false, admin := 0, fee_bps := 1 })
    decimals := [(1, 9), (2, 6)]
    prices := [(1, 13500000000), (2, 100000000)] }

/-- `ammReady` with the decimals map empty (mint accounts unresolved) and
both prices `10^8`. -/
def ammNoDecimals : OxediumAmm :=
  { ammReady with decimals := [], prices := [(1, 100000000), (2, 100000000)] }

/-- An adapter before any update. -/
def ammEmpty : OxediumAmm :=
  { program_id := 7, vaults := [], treasury := none, decimals := [], prices := [] }

/-- An account map holding just a treasury with the kill-switch on. -/
def stopMap : AccountMap :=
  [(5, { owner := 7
         parsed := .treasury { stoptap := true, admin := 0, fee_bps := 0 }
         mintDecimals := none
         pythPrice := none })]

/-! ## Quote-level lemmas and claims -/

/-- A found vault has the requested mint. -/
theorem findVault_mint {vaults : List (Pubkey × Vault)} {mint : Pubkey}
    {v : Vault} (h : findVault vaults mint = some v) : v.token_mint = mint := by
  unfold findVault at h
  cases hf : vaults.find? (fun pv => pv.2.token_mint == mint) with
  | none => rw [hf] at h; exact absurd h (by simp)
  | some pv =>
    rw [hf] at h
    simp at h
    have hp := List.find?_some hf
    simp only [beq_iff_eq] at hp
    rw [← h]
    exact hp

/-- C9 (the claim is false; the code crashes): with both oracle prices and
vaults resolved and `params.amount == 0`, `compute_swap_math` succeeds, so
`quote` reaches the `fee_pct` computation with a zero divisor —
`Decimal::from(total_fee) / Decimal::from(params.amount)` is a `rust_decimal`
division by zero, which panics. -/
theorem C9_fee_pct_division_by_zero :
    quote feeRule1 ammReady { amount := 0, input_mint := 1, output_mint := 2 }
      = .error .divByZero := by decide

/-- C5 counterexample: with the decimals of both mints absent from the
resolved data (and oracle prices present), `quote` does not fail — it
proceeds with decimals treated as zero and returns a successful quote. -/
theorem C5_default_decimals_counterexample :
    quote feeRule1 ammNoDecimals { amount := 1000, input_mint := 1, output_mint := 2 }
      = .ok { in_amount := 1000, out_amount := 1000, fee_amount := 0, fee_mint := 2 } := by
  decide

/-- C5 as amended: `quote` substitutes the default `0` for absent decimals
(`unwrap_or(&0)` in the source) instead of failing: when neither mint's
decimals resolve, the call behaves exactly as if both decimals were recorded
as zero. -/
theorem C5_default_decimals_amended (fees_setting : Vault → Vault → Nat)
    (s : OxediumAmm) (params : QuoteParams)
    (hin : s.decimals.lookup params.input_mint = none)
    (hout : s.decimals.lookup params.output_mint = none) :
    quote fees_setting s params
      = quote fees_setting
          { s with decimals := [(params.input_mint, 0), (params.output_mint, 0)] }
          params := by
  have hpair1 : (([(params.input_mint, 0), (params.output_mint, 0)] :
      List (Pubkey × Nat)).lookup params.input_mint).getD 0 = 0 := by
    simp [List.lookup]
  have hpair2 : (([(params.input_mint, 0), (params.output_mint, 0)] :
      List (Pubkey × Nat)).lookup params.output_mint).getD 0 = 0 := by
    simp only [List.lookup, beq_self_eq_true]
    cases params.output_mint == params.input_mint <;> rfl
  simp only [quote]
  cases hv1 : findVault s.vaults params.input_mint with
  | none => rfl
  | some vault_in =>
    cases hv2 : findVault s.vaults params.output_mint with
    | none => rfl
    | some vault_out =>
      have hm1 := findVault_mint hv1
      have hm2 := findVault_mint hv2
      simp only [hm1, hm2, hin, hout, hpair1, hpair2, Option.getD_none]

/-- C5 witness: the missing-decimals snapshot quotes exactly as the
explicit-zero-decimals snapshot. -/
theorem C5_default_decimals_amended_witness :
    quote feeRule1 ammNoDecimals { amount := 1000, input_mint := 1, output_mint := 2 }
      = quote feeRule1 { ammNoDecimals with decimals := [(1, 0), (2, 0)] }
          { amount := 1000, input_mint := 1, output_mint := 2 } :=
  C5_default_decimals_amended feeRule1 ammNoDecimals
    { amount := 1000, input_mint := 1, output_mint := 2 } rfl rfl

/-- The classification fold of `update` never touches the prices map. -/
theorem foldl_updateStep_prices (pid : Pubkey) (l : AccountMap) (acc : OxediumAmm) :
    (l.foldl (updateStep pid) acc).prices = acc.prices := by
  induction l generalizing acc with
  | nil => rfl
  | cons e tl ih =>
    rw [List.foldl_cons, ih]
    unfold updateStep
    split
    · rfl
    · split <;> rfl

/-- C6: after any `update` whose account map yields a treasury with
`stoptap == true`, every quote call fails (`update` returned before filling
the price map, so the oracle-readiness gate rejects every request). -/
theorem C6_stoptap_blocks_quotes (fees_setting : Vault → Vault → Nat)
    (s : OxediumAmm) (m : AccountMap) (pk : Pubkey) (t : Treasury)
    (ht : (update s m).treasury = some (pk, t)) (hstop : t.stoptap = true)
    (params : QuoteParams) :
    quote fees_setting (update s m) params = .error .oracleNotReady := by
  have hquote0 : ∀ st : OxediumAmm, st.prices = [] →
      quote fees_setting st params = .error .oracleNotReady := by
    intro st hp
    unfold quote
    rw [hp]
    rfl
  simp only [update] at ht ⊢
  generalize hF : m.foldl (updateStep s.program_id)
    { s with vaults := [], treasury := none, decimals := [], prices := [] } = F at ht ⊢
  have hp : F.prices = [] := by
    rw [← hF]
    simpa using foldl_updateStep_prices s.program_id m _
  cases h1 : F.treasury with
  | none =>
    rw [h1] at ht
    simp only [] at ht
    rw [h1] at ht
    exact Option.noConfusion ht
  | some pr =>
    obtain ⟨pk', t'⟩ := pr
    rw [h1] at ht
    simp only [] at ht
    by_cases hs : t'.stoptap = true
    · simp only []
      rw [if_pos hs]
      exact hquote0 F hp
    · rw [if_neg hs] at ht
      simp only [] at ht
      simp only [Option.some.injEq, Prod.mk.injEq] at ht
      rw [ht.2] at hs
      exact absurd hstop hs

/-- C6 witness: a concrete update carrying a `stoptap := true` treasury makes
a concrete quote fail. -/
theorem C6_stoptap_blocks_quotes_witness :
    quote feeRule1 (update ammEmpty stopMap)
      { amount := 7, input_mint := 1, output_mint := 2 } = .error .oracleNotReady :=
  C6_stoptap_blocks_quotes feeRule1 ammEmpty stopMap 5
    { stoptap := true, admin := 0, fee_bps := 0 } (by decide) rfl
    { amount := 7, input_mint := 1, output_mint := 2 }

end Oxedium
